import Mathlib

/-!
Shallow embedding of the FreelanceForge credentials pallet
(src/substrate-node/pallets/freelance-credentials/src/lib.rs).

The pallet keeps two storage maps:
  Credentials      : Hash -> Option (AccountId, BoundedVec<u8, 4096>)   (OptionQuery)
  OwnerCredentials : AccountId -> BoundedVec<Hash, 500>                 (ValueQuery)
and three dispatchables: mint_credential, update_credential,
delete_credential.  We model the caller identity (ensure_signed) as an
explicit AccountId argument, a payload as a list of bytes (only its length
and equality matter), a hash digest as a Nat, and the external blake2
hashing collaborator as an arbitrary function parameter hashFn.  Storage
writes become functional updates of a record of total maps; ValueQuery is
the total function with default [].  The error enum is translated verbatim.
-/

abbrev AccountId := Nat

abbrev Hash := Nat

abbrev Payload := List Nat

/-- Errors of the pallet, translated from the `Error<T>` enum in lib.rs. -/
inductive PalletError where
  | CredentialAlreadyExists
  | MetadataTooLarge
  | TooManyCredentials
  | CredentialNotFound
  | NotCredentialOwner
deriving DecidableEq, Repr

/-- The two storage maps of the pallet.  `credentials` is the OptionQuery
map Credentials; `ownerCredentials` is the ValueQuery map OwnerCredentials
(absent keys read as the empty list). -/
structure PalletState where
  credentials : Hash → Option (AccountId × Payload)
  ownerCredentials : AccountId → List Hash

/-- Genesis storage: both maps empty. -/
def initState : PalletState :=
  { credentials := fun _ => none, ownerCredentials := fun _ => [] }

/-- BoundedVec::try_push for a vector of capacity `cap`: appends when the
current length is below the capacity, fails otherwise. -/
def tryPush (cap : Nat) (l : List Hash) (x : Hash) : Option (List Hash) :=
  if l.length < cap then some (l ++ [x]) else none

/-- Embedding of `mint_credential` (lib.rs lines 123-166).  Steps, in
source order: the BoundedVec<u8, 4096> conversion (fails with
MetadataTooLarge when the payload exceeds 4096 bytes), the duplicate check
against Credentials (CredentialAlreadyExists), the capacity check
`owner_credentials.len() < 500` (TooManyCredentials), the Credentials
insert, and the try_push onto the owner's list whose failure maps to
TooManyCredentials after the Credentials insert has already happened. -/
def mint_credential (hashFn : Payload → Hash) (s : PalletState)
    (who : AccountId) (metadata_json : Payload) :
    Except PalletError Unit × PalletState :=
  if metadata_json.length ≤ 4096 then
    match s.credentials (hashFn metadata_json) with
    | some _ => (Except.error PalletError.CredentialAlreadyExists, s)
    | none =>
      if (s.ownerCredentials who).length < 500 then
        match tryPush 500 (s.ownerCredentials who) (hashFn metadata_json) with
        | some pushed =>
          (Except.ok (),
            { credentials := fun h =>
                if h = hashFn metadata_json then some (who, metadata_json)
                else s.credentials h,
              ownerCredentials := fun a =>
                if a = who then pushed else s.ownerCredentials a })
        | none =>
          (Except.error PalletError.TooManyCredentials,
            { s with credentials := fun h =>
                if h = hashFn metadata_json then some (who, metadata_json)
                else s.credentials h })
      else (Except.error PalletError.TooManyCredentials, s)
  else (Except.error PalletError.MetadataTooLarge, s)

/-- Embedding of `update_credential` (lib.rs lines 186-215).  Steps, in
source order: lookup (CredentialNotFound), ownership check
(NotCredentialOwner), size check (MetadataTooLarge), then the Credentials
insert that overwrites only the payload at the given id. -/
def update_credential (s : PalletState) (who : AccountId)
    (credential_id : Hash) (new_metadata : Payload) :
    Except PalletError Unit × PalletState :=
  match s.credentials credential_id with
  | none => (Except.error PalletError.CredentialNotFound, s)
  | some (owner, _old_metadata) =>
    if owner = who then
      if new_metadata.length ≤ 4096 then
        (Except.ok (),
          { s with credentials := fun h =>
              if h = credential_id then some (who, new_metadata)
              else s.credentials h })
      else (Except.error PalletError.MetadataTooLarge, s)
    else (Except.error PalletError.NotCredentialOwner, s)

/-- Embedding of `delete_credential` (lib.rs lines 233-261).  Steps, in
source order: lookup (CredentialNotFound), ownership check
(NotCredentialOwner), removal from Credentials, then
`owner_credentials.retain(|&id| id != credential_id)` on the caller's
index list. -/
def delete_credential (s : PalletState) (who : AccountId)
    (credential_id : Hash) :
    Except PalletError Unit × PalletState :=
  match s.credentials credential_id with
  | none => (Except.error PalletError.CredentialNotFound, s)
  | some (owner, _) =>
    if owner = who then
      (Except.ok (),
        { credentials := fun h =>
            if h = credential_id then none else s.credentials h,
          ownerCredentials := fun a =>
            if a = who then
              (s.ownerCredentials who).filter (fun id => id != credential_id)
            else s.ownerCredentials a })
    else (Except.error PalletError.NotCredentialOwner, s)

/-- One dispatched extrinsic together with its (already authenticated)
caller. -/
inductive Call where
  | mint (who : AccountId) (metadata_json : Payload)
  | update (who : AccountId) (credential_id : Hash) (new_metadata : Payload)
  | delete (who : AccountId) (credential_id : Hash)

/-- State reached after dispatching one call (the result value is
discarded; a failed call leaves whatever state the operation returns). -/
def step (hashFn : Payload → Hash) (s : PalletState) : Call → PalletState
  | Call.mint who m => (mint_credential hashFn s who m).2
  | Call.update who cid m => (update_credential s who cid m).2
  | Call.delete who cid => (delete_credential s who cid).2

/-- State reached from genesis after a finite sequence of calls. -/
def run (hashFn : Payload → Hash) (calls : List Call) : PalletState :=
  calls.foldl (step hashFn) initState

/-- Bijective consistency between the two maps, together with freedom from
duplicates inside each owner's index list. -/
def IndexStoreInv (s : PalletState) : Prop :=
  (∀ O H, H ∈ s.ownerCredentials O ↔ ∃ p, s.credentials H = some (O, p)) ∧
  (∀ O, (s.ownerCredentials O).Nodup)


/-- IndexStoreInv is preserved by the post-state of a successful mint:
the Credentials insert at a fresh id together with the append of that id
to the caller's list keep the two maps consistent. -/
theorem inv_mint_post (s : PalletState) (who : AccountId) (cid : Hash)
    (m : Payload) (hdup : s.credentials cid = none) (hinv : IndexStoreInv s) :
    IndexStoreInv
      { credentials := fun h => if h = cid then some (who, m) else s.credentials h,
        ownerCredentials := fun a =>
          if a = who then s.ownerCredentials who ++ [cid]
          else s.ownerCredentials a } := by
  obtain ⟨hbij, hnd⟩ := hinv
  refine ⟨?_, ?_⟩
  · intro O H
    show (H ∈ if O = who then s.ownerCredentials who ++ [cid] else s.ownerCredentials O) ↔
      ∃ p, (if H = cid then some (who, m) else s.credentials H) = some (O, p)
    by_cases hH : H = cid
    · subst hH
      rw [if_pos rfl]
      by_cases hO : O = who
      · subst hO
        rw [if_pos rfl]
        constructor
        · intro _
          exact ⟨m, rfl⟩
        · intro _
          exact List.mem_append_right _ (List.mem_singleton_self _)
      · rw [if_neg hO]
        constructor
        · intro hmem
          obtain ⟨p, hp⟩ := (hbij O H).1 hmem
          rw [hdup] at hp
          exact Option.noConfusion hp
        · rintro ⟨p, hp⟩
          rw [Option.some_inj, Prod.mk.injEq] at hp
          exact absurd hp.1.symm hO
    · rw [if_neg hH]
      by_cases hO : O = who
      · subst hO
        rw [if_pos rfl, List.mem_append]
        constructor
        · rintro (hmem | hmem)
          · exact (hbij O H).1 hmem
          · rw [List.mem_singleton] at hmem
            exact absurd hmem hH
        · intro hex
          exact Or.inl ((hbij O H).2 hex)
      · rw [if_neg hO]
        exact hbij O H
  · intro O
    show (if O = who then s.ownerCredentials who ++ [cid] else s.ownerCredentials O).Nodup
    by_cases hO : O = who
    · rw [if_pos hO]
      rw [List.nodup_append]
      refine ⟨hnd who, List.nodup_singleton cid, ?_⟩
      intro a ha hb
      rw [List.mem_singleton] at hb
      subst hb
      obtain ⟨p, hp⟩ := (hbij who a).1 ha
      rw [hdup] at hp
      exact Option.noConfusion hp
    · rw [if_neg hO]
      exact hnd O

/-- IndexStoreInv is preserved by the post-state of a successful update:
only the payload stored at an id already owned by the caller changes, so
the membership relation between the two maps is untouched. -/
theorem inv_update_post (s : PalletState) (who : AccountId) (cid : Hash)
    (m pold : Payload) (hcur : s.credentials cid = some (who, pold))
    (hinv : IndexStoreInv s) :
    IndexStoreInv
      { s with credentials := fun h =>
          if h = cid then some (who, m) else s.credentials h } := by
  obtain ⟨hbij, hnd⟩ := hinv
  refine ⟨?_, hnd⟩
  intro O H
  show H ∈ s.ownerCredentials O ↔
    ∃ p, (if H = cid then some (who, m) else s.credentials H) = some (O, p)
  by_cases hH : H = cid
  · subst hH
    rw [if_pos rfl]
    constructor
    · intro hmem
      obtain ⟨p, hp⟩ := (hbij O H).1 hmem
      have heq := hcur.symm.trans hp
      rw [Option.some_inj, Prod.mk.injEq] at heq
      exact ⟨m, by rw [heq.1]⟩
    · rintro ⟨p, hp⟩
      rw [Option.some_inj, Prod.mk.injEq] at hp
      refine (hbij O H).2 ⟨pold, ?_⟩
      rw [hcur, hp.1]
  · rw [if_neg hH]
    exact hbij O H

/-- IndexStoreInv is preserved by the post-state of a successful delete:
the removal from Credentials and the retain on the owner's list drop
exactly the deleted id from both maps. -/
theorem inv_delete_post (s : PalletState) (who : AccountId) (cid : Hash)
    (pold : Payload) (hcur : s.credentials cid = some (who, pold))
    (hinv : IndexStoreInv s) :
    IndexStoreInv
      { credentials := fun h => if h = cid then none else s.credentials h,
        ownerCredentials := fun a =>
          if a = who then (s.ownerCredentials who).filter (fun id => id != cid)
          else s.ownerCredentials a } := by
  obtain ⟨hbij, hnd⟩ := hinv
  refine ⟨?_, ?_⟩
  · intro O H
    show (H ∈ if O = who then (s.ownerCredentials who).filter (fun id => id != cid)
        else s.ownerCredentials O) ↔
      ∃ p, (if H = cid then none else s.credentials H) = some (O, p)
    by_cases hH : H = cid
    · subst hH
      rw [if_pos rfl]
      constructor
      · intro hmem
        by_cases hO : O = who
        · subst hO
          rw [if_pos rfl, List.mem_filter] at hmem
          simp at hmem
        · rw [if_neg hO] at hmem
          obtain ⟨p, hp⟩ := (hbij O H).1 hmem
          have heq := hcur.symm.trans hp
          rw [Option.some_inj, Prod.mk.injEq] at heq
          exact absurd heq.1 (fun h => hO h.symm)
      · rintro ⟨p, hp⟩
        exact Option.noConfusion hp
    · rw [if_neg hH]
      by_cases hO : O = who
      · subst hO
        rw [if_pos rfl, List.mem_filter]
        constructor
        · rintro ⟨hmem, _⟩
          exact (hbij O H).1 hmem
        · intro hex
          refine ⟨(hbij O H).2 hex, ?_⟩
          simpa using hH
      · rw [if_neg hO]
        exact hbij O H
  · intro O
    show (if O = who then (s.ownerCredentials who).filter (fun id => id != cid)
        else s.ownerCredentials O).Nodup
    by_cases hO : O = who
    · rw [if_pos hO]
      exact (hnd who).filter _
    · rw [if_neg hO]
      exact hnd O

/-- Every mint_credential call, failed or successful, preserves
IndexStoreInv. -/
theorem mint_preserves_inv (hashFn : Payload → Hash) (s : PalletState)
    (who : AccountId) (m : Payload) (hinv : IndexStoreInv s) :
    IndexStoreInv (mint_credential hashFn s who m).2 := by
  unfold mint_credential
  split
  case isTrue hsize =>
    split
    case h_1 pr hdup => exact hinv
    case h_2 hdup =>
      split
      case isTrue hcap =>
        split
        case h_1 pushed hpush =>
          unfold tryPush at hpush
          rw [if_pos hcap] at hpush
          injection hpush with hpushed
          subst hpushed
          exact inv_mint_post s who (hashFn m) m hdup hinv
        case h_2 hpush =>
          exfalso
          unfold tryPush at hpush
          rw [if_pos hcap] at hpush
          exact Option.noConfusion hpush
      case isFalse hcap => exact hinv
  case isFalse hsize => exact hinv

/-- Every update_credential call, failed or successful, preserves
IndexStoreInv. -/
theorem update_preserves_inv (s : PalletState) (who : AccountId)
    (cid : Hash) (m : Payload) (hinv : IndexStoreInv s) :
    IndexStoreInv (update_credential s who cid m).2 := by
  unfold update_credential
  split
  case h_1 => exact hinv
  case h_2 owner pold hcur =>
    split
    case isTrue howner =>
      split
      case isTrue hsize =>
        subst howner
        exact inv_update_post s owner cid m pold hcur hinv
      case isFalse hsize => exact hinv
    case isFalse howner => exact hinv

/-- Every delete_credential call, failed or successful, preserves
IndexStoreInv. -/
theorem delete_preserves_inv (s : PalletState) (who : AccountId)
    (cid : Hash) (hinv : IndexStoreInv s) :
    IndexStoreInv (delete_credential s who cid).2 := by
  unfold delete_credential
  split
  case h_1 => exact hinv
  case h_2 owner pold hcur =>
    split
    case isTrue howner =>
      subst howner
      exact inv_delete_post s owner cid pold hcur hinv
    case isFalse howner => exact hinv

/-- Every dispatched call preserves IndexStoreInv. -/
theorem step_preserves_inv (hashFn : Payload → Hash) (s : PalletState)
    (c : Call) (hinv : IndexStoreInv s) :
    IndexStoreInv (step hashFn s c) := by
  cases c with
  | mint who m => exact mint_preserves_inv hashFn s who m hinv
  | update who cid m => exact update_preserves_inv s who cid m hinv
  | delete who cid => exact delete_preserves_inv s who cid hinv

/-- The genesis state satisfies IndexStoreInv. -/
theorem initState_inv : IndexStoreInv initState := by
  refine ⟨?_, ?_⟩
  · intro O H
    constructor
    · intro hmem
      exact absurd hmem (List.not_mem_nil H)
    · rintro ⟨p, hp⟩
      exact Option.noConfusion hp
  · intro O
    exact List.nodup_nil

/-- Every state reachable from genesis by a finite sequence of calls
satisfies IndexStoreInv. -/
theorem run_inv (hashFn : Payload → Hash) (calls : List Call) :
    IndexStoreInv (run hashFn calls) := by
  unfold run
  suffices h : ∀ s : PalletState, IndexStoreInv s →
      IndexStoreInv (calls.foldl (step hashFn) s) from h initState initState_inv
  induction calls with
  | nil => intro s hs; exact hs
  | cons c cs ih =>
    intro s hs
    exact ih _ (step_preserves_inv hashFn s c hs)

/-- C1: after every finite sequence of mint_credential / update_credential
/ delete_credential calls starting from the empty state, a record id H
belongs to an owner O's index list if and only if the Credentials map
holds an entry at H whose owner is O; consequently each id occurs at most
once in any single list and in at most one owner's list. -/
theorem C1_index_store_bijective (hashFn : Payload → Hash) (calls : List Call) :
    (∀ O H, H ∈ (run hashFn calls).ownerCredentials O ↔
        ∃ p, (run hashFn calls).credentials H = some (O, p)) ∧
    (∀ O H, ((run hashFn calls).ownerCredentials O).count H ≤ 1) ∧
    (∀ O1 O2 H, H ∈ (run hashFn calls).ownerCredentials O1 →
        H ∈ (run hashFn calls).ownerCredentials O2 → O1 = O2) := by
  obtain ⟨hbij, hnd⟩ := run_inv hashFn calls
  refine ⟨hbij, ?_, ?_⟩
  · intro O H
    exact List.nodup_iff_count_le_one.1 (hnd O) H
  · intro O1 O2 H h1 h2
    obtain ⟨p, hp⟩ := (hbij O1 H).1 h1
    obtain ⟨q, hq⟩ := (hbij O2 H).1 h2
    have heq := hp.symm.trans hq
    rw [Option.some_inj, Prod.mk.injEq] at heq
    exact heq.1

/-- Result of mint_credential when all three checks pass: success, the new
Credentials entry, and the id appended to the caller's list. -/
theorem mint_ok_eq (hashFn : Payload → Hash) (s : PalletState) (who : AccountId)
    (m : Payload) (hsize : m.length ≤ 4096)
    (hdup : s.credentials (hashFn m) = none)
    (hcap : (s.ownerCredentials who).length < 500) :
    mint_credential hashFn s who m =
      (Except.ok (),
        { credentials := fun h =>
            if h = hashFn m then some (who, m) else s.credentials h,
          ownerCredentials := fun a =>
            if a = who then s.ownerCredentials who ++ [hashFn m]
            else s.ownerCredentials a }) := by
  unfold mint_credential tryPush
  rw [if_pos hsize, hdup, if_pos hcap, if_pos hcap]

/-- Result of mint_credential on an oversized payload. -/
theorem mint_size_err_eq (hashFn : Payload → Hash) (s : PalletState)
    (who : AccountId) (m : Payload) (hsize : ¬ m.length ≤ 4096) :
    mint_credential hashFn s who m =
      (Except.error PalletError.MetadataTooLarge, s) := by
  unfold mint_credential
  rw [if_neg hsize]

/-- Result of mint_credential when the hash of the payload is already a
key of the Credentials map. -/
theorem mint_dup_err_eq (hashFn : Payload → Hash) (s : PalletState)
    (who : AccountId) (m : Payload) (pr : AccountId × Payload)
    (hsize : m.length ≤ 4096) (hdup : s.credentials (hashFn m) = some pr) :
    mint_credential hashFn s who m =
      (Except.error PalletError.CredentialAlreadyExists, s) := by
  unfold mint_credential
  rw [if_pos hsize, hdup]

/-- Result of mint_credential when the caller's list is full. -/
theorem mint_cap_err_eq (hashFn : Payload → Hash) (s : PalletState)
    (who : AccountId) (m : Payload) (hsize : m.length ≤ 4096)
    (hdup : s.credentials (hashFn m) = none)
    (hcap : ¬ (s.ownerCredentials who).length < 500) :
    mint_credential hashFn s who m =
      (Except.error PalletError.TooManyCredentials, s) := by
  unfold mint_credential
  rw [if_pos hsize, hdup, if_neg hcap]

/-- Result of update_credential when the record exists, the caller owns
it, and the new payload fits: only the Credentials entry at the id
changes. -/
theorem update_ok_eq (s : PalletState) (who : AccountId) (cid : Hash)
    (m pold : Payload) (hcur : s.credentials cid = some (who, pold))
    (hsize : m.length ≤ 4096) :
    update_credential s who cid m =
      (Except.ok (),
        { s with credentials := fun h =>
            if h = cid then some (who, m) else s.credentials h }) := by
  unfold update_credential
  rw [hcur]
  simp [hsize]

/-- Result of update_credential when the caller is not the owner. -/
theorem update_notowner_eq (s : PalletState) (who owner : AccountId)
    (cid : Hash) (m pold : Payload)
    (hcur : s.credentials cid = some (owner, pold)) (howner : owner ≠ who) :
    update_credential s who cid m =
      (Except.error PalletError.NotCredentialOwner, s) := by
  unfold update_credential
  rw [hcur]
  simp [howner]

/-- Result of update_credential on an oversized new payload by the
owner. -/
theorem update_size_err_eq (s : PalletState) (who : AccountId) (cid : Hash)
    (m pold : Payload) (hcur : s.credentials cid = some (who, pold))
    (hsize : ¬ m.length ≤ 4096) :
    update_credential s who cid m =
      (Except.error PalletError.MetadataTooLarge, s) := by
  unfold update_credential
  rw [hcur]
  simp [hsize]

/-- Result of delete_credential when the record exists and the caller
owns it. -/
theorem delete_ok_eq (s : PalletState) (who : AccountId) (cid : Hash)
    (pold : Payload) (hcur : s.credentials cid = some (who, pold)) :
    delete_credential s who cid =
      (Except.ok (),
        { credentials := fun h => if h = cid then none else s.credentials h,
          ownerCredentials := fun a =>
            if a = who then (s.ownerCredentials who).filter (fun id => id != cid)
            else s.ownerCredentials a }) := by
  unfold delete_credential
  rw [hcur]
  simp

/-- Result of delete_credential when the caller is not the owner. -/
theorem delete_notowner_eq (s : PalletState) (who owner : AccountId)
    (cid : Hash) (pold : Payload)
    (hcur : s.credentials cid = some (owner, pold)) (howner : owner ≠ who) :
    delete_credential s who cid =
      (Except.error PalletError.NotCredentialOwner, s) := by
  unfold delete_credential
  rw [hcur]
  simp [howner]

/-- Sample state used to exercise failure branches on concrete inputs:
every hash is bound to a record owned by account 1 with empty payload,
and every index list is empty. -/
def demoState : PalletState :=
  { credentials := fun _ => some (1, []), ownerCredentials := fun _ => [] }

/-- C2: whenever mint_credential, update_credential or delete_credential
returns an error, the state it returns is exactly the pre-call state for
both storage maps; in particular no failed mint leaves an orphaned
Credentials entry. -/
theorem C2_rejected_calls_atomic (hashFn : Payload → Hash) (s : PalletState)
    (who : AccountId) (cid : Hash) (m : Payload) :
    (∀ e, (mint_credential hashFn s who m).1 = Except.error e →
      (mint_credential hashFn s who m).2 = s) ∧
    (∀ e, (update_credential s who cid m).1 = Except.error e →
      (update_credential s who cid m).2 = s) ∧
    (∀ e, (delete_credential s who cid).1 = Except.error e →
      (delete_credential s who cid).2 = s) := by
  refine ⟨?_, ?_, ?_⟩
  · intro e
    unfold mint_credential
    split
    case isTrue hsize =>
      split
      case h_1 pr hdup => intro _; rfl
      case h_2 hdup =>
        split
        case isTrue hcap =>
          split
          case h_1 pushed hpush => intro herr; exact Except.noConfusion herr
          case h_2 hpush =>
            exfalso
            unfold tryPush at hpush
            rw [if_pos hcap] at hpush
            exact Option.noConfusion hpush
        case isFalse hcap => intro _; rfl
    case isFalse hsize => intro _; rfl
  · intro e
    unfold update_credential
    split
    case h_1 => intro _; rfl
    case h_2 owner pold hcur =>
      split
      case isTrue howner =>
        split
        case isTrue hsize => intro herr; exact Except.noConfusion herr
        case isFalse hsize => intro _; rfl
      case isFalse howner => intro _; rfl
  · intro e
    unfold delete_credential
    split
    case h_1 => intro _; rfl
    case h_2 owner pold hcur =>
      split
      case isTrue howner => intro herr; exact Except.noConfusion herr
      case isFalse howner => intro _; rfl

/-- Witness for C2 at concrete failing calls: a duplicate mint on
demoState and a lookup miss for update and delete on the genesis state
all leave the state untouched. -/
theorem C2_rejected_calls_atomic_witness :
    (mint_credential (fun p => p.length) demoState 0 []).2 = demoState ∧
    (update_credential initState 0 0 []).2 = initState ∧
    (delete_credential initState 0 0).2 = initState :=
  ⟨(C2_rejected_calls_atomic (fun p => p.length) demoState 0 0 []).1
      PalletError.CredentialAlreadyExists rfl,
   (C2_rejected_calls_atomic (fun p => p.length) initState 0 0 []).2.1
      PalletError.CredentialNotFound rfl,
   (C2_rejected_calls_atomic (fun p => p.length) initState 0 0 []).2.2
      PalletError.CredentialNotFound rfl⟩

/-- Credentials entry written by a successful mint. -/
theorem mint_post_cred_at (hashFn : Payload → Hash) (s : PalletState)
    (who : AccountId) (m : Payload) (hsize : m.length ≤ 4096)
    (hdup : s.credentials (hashFn m) = none)
    (hcap : (s.ownerCredentials who).length < 500) :
    ((mint_credential hashFn s who m).2).credentials (hashFn m) =
      some (who, m) := by
  rw [mint_ok_eq hashFn s who m hsize hdup hcap]
  show (if hashFn m = hashFn m then some (who, m)
      else s.credentials (hashFn m)) = some (who, m)
  rw [if_pos rfl]

/-- Index list of the caller after a successful mint. -/
theorem mint_post_owner_self (hashFn : Payload → Hash) (s : PalletState)
    (who : AccountId) (m : Payload) (hsize : m.length ≤ 4096)
    (hdup : s.credentials (hashFn m) = none)
    (hcap : (s.ownerCredentials who).length < 500) :
    ((mint_credential hashFn s who m).2).ownerCredentials who =
      s.ownerCredentials who ++ [hashFn m] := by
  rw [mint_ok_eq hashFn s who m hsize hdup hcap]
  show (if who = who then s.ownerCredentials who ++ [hashFn m]
      else s.ownerCredentials who) = s.ownerCredentials who ++ [hashFn m]
  rw [if_pos rfl]

/-- Index lists of other owners are untouched by a successful mint. -/
theorem mint_post_owner_other (hashFn : Payload → Hash) (s : PalletState)
    (who : AccountId) (m : Payload) (hsize : m.length ≤ 4096)
    (hdup : s.credentials (hashFn m) = none)
    (hcap : (s.ownerCredentials who).length < 500)
    (a : AccountId) (ha : a ≠ who) :
    ((mint_credential hashFn s who m).2).ownerCredentials a =
      s.ownerCredentials a := by
  rw [mint_ok_eq hashFn s who m hsize hdup hcap]
  show (if a = who then s.ownerCredentials who ++ [hashFn m]
      else s.ownerCredentials a) = s.ownerCredentials a
  rw [if_neg ha]

/-- Credentials entry removed by a successful delete. -/
theorem delete_post_cred_at (s : PalletState) (who : AccountId) (cid : Hash)
    (pold : Payload) (hcur : s.credentials cid = some (who, pold)) :
    ((delete_credential s who cid).2).credentials cid = none := by
  rw [delete_ok_eq s who cid pold hcur]
  show (if cid = cid then none else s.credentials cid) = none
  rw [if_pos rfl]

/-- Index list of the caller after a successful delete. -/
theorem delete_post_owner_self (s : PalletState) (who : AccountId)
    (cid : Hash) (pold : Payload)
    (hcur : s.credentials cid = some (who, pold)) :
    ((delete_credential s who cid).2).ownerCredentials who =
      (s.ownerCredentials who).filter (fun id => id != cid) := by
  rw [delete_ok_eq s who cid pold hcur]
  show (if who = who then (s.ownerCredentials who).filter (fun id => id != cid)
      else s.ownerCredentials who) =
    (s.ownerCredentials who).filter (fun id => id != cid)
  rw [if_pos rfl]

/-- Index lists of other owners are untouched by a successful delete. -/
theorem delete_post_owner_other (s : PalletState) (who : AccountId)
    (cid : Hash) (pold : Payload)
    (hcur : s.credentials cid = some (who, pold))
    (a : AccountId) (ha : a ≠ who) :
    ((delete_credential s who cid).2).ownerCredentials a =
      s.ownerCredentials a := by
  rw [delete_ok_eq s who cid pold hcur]
  show (if a = who then (s.ownerCredentials who).filter (fun id => id != cid)
      else s.ownerCredentials a) = s.ownerCredentials a
  rw [if_neg ha]

/-- Appending an id and then filtering it away never lengthens a list. -/
theorem length_filter_append_le (l : List Hash) (cid : Hash) :
    ((l ++ [cid]).filter (fun id => id != cid)).length ≤ l.length := by
  rw [List.filter_append]
  have h1 : [cid].filter (fun id => id != cid) = [] := by simp
  rw [h1, List.append_nil]
  exact List.length_filter_le _ l

/-- Sample state whose every index list is full (500 entries) while the
Credentials map is empty. -/
def fullState : PalletState :=
  { credentials := fun _ => none,
    ownerCredentials := fun _ => List.replicate 500 7 }

/-- C3: with the size and duplicate checks passing, mint_credential
succeeds whenever the caller's index list holds fewer than 500 entries,
and a mint attempted with the list already at 500 entries fails with
TooManyCredentials, leaving the list at 500 entries and the Credentials
map without an entry for the attempted id. -/
theorem C3_capacity_boundary (hashFn : Payload → Hash) (s : PalletState)
    (who : AccountId) (m : Payload) (hsize : m.length ≤ 4096)
    (hdup : s.credentials (hashFn m) = none) :
    ((s.ownerCredentials who).length < 500 →
      (mint_credential hashFn s who m).1 = Except.ok ()) ∧
    ((s.ownerCredentials who).length = 500 →
      (mint_credential hashFn s who m).1 =
        Except.error PalletError.TooManyCredentials ∧
      ((mint_credential hashFn s who m).2).ownerCredentials who =
        s.ownerCredentials who ∧
      ((mint_credential hashFn s who m).2).credentials (hashFn m) = none) := by
  constructor
  · intro hcap
    rw [mint_ok_eq hashFn s who m hsize hdup hcap]
  · intro hfull
    have hcap : ¬ (s.ownerCredentials who).length < 500 := by omega
    rw [mint_cap_err_eq hashFn s who m hsize hdup hcap]
    exact ⟨rfl, rfl, hdup⟩

/-- Witness for C3: on the genesis state a mint of the empty payload
succeeds, and on fullState the same mint is rejected with
TooManyCredentials. -/
theorem C3_capacity_boundary_witness :
    (mint_credential (fun p => p.length) initState 0 []).1 = Except.ok () ∧
    (mint_credential (fun p => p.length) fullState 0 []).1 =
      Except.error PalletError.TooManyCredentials :=
  ⟨(C3_capacity_boundary (fun p => p.length) initState 0 []
      (by decide) rfl).1 (by decide),
   ((C3_capacity_boundary (fun p => p.length) fullState 0 []
      (by decide) rfl).2 (by
        show (List.replicate 500 7).length = 500
        rw [List.length_replicate])).1⟩

/-- C4: a successful mint of payload P records (caller, P) at the key
Hash(P), and while any entry is present at Hash(P) a mint of P by any
caller is rejected with CredentialAlreadyExists and changes nothing. -/
theorem C4_content_addressed_dedup (hashFn : Payload → Hash)
    (s : PalletState) (A B : AccountId) (P : Payload)
    (hsize : P.length ≤ 4096) :
    ((mint_credential hashFn s A P).1 = Except.ok () →
      ((mint_credential hashFn s A P).2).credentials (hashFn P) =
        some (A, P)) ∧
    (∀ pr, s.credentials (hashFn P) = some pr →
      (mint_credential hashFn s B P).1 =
        Except.error PalletError.CredentialAlreadyExists ∧
      (mint_credential hashFn s B P).2 = s) := by
  constructor
  · intro hok
    by_cases hsz : P.length ≤ 4096
    · rcases hcred : s.credentials (hashFn P) with _ | pr
      · by_cases hcap : (s.ownerCredentials A).length < 500
        · exact mint_post_cred_at hashFn s A P hsz hcred hcap
        · rw [mint_cap_err_eq hashFn s A P hsz hcred hcap] at hok
          exact Except.noConfusion hok
      · rw [mint_dup_err_eq hashFn s A P pr hsz hcred] at hok
        exact Except.noConfusion hok
    · rw [mint_size_err_eq hashFn s A P hsz] at hok
      exact Except.noConfusion hok
  · intro pr hdup
    rw [mint_dup_err_eq hashFn s B P pr hsize hdup]
    exact ⟨rfl, rfl⟩

/-- Witness for C4: minting the empty payload on genesis stores it under
its hash for caller 0, and on demoState (where the hash is taken) a mint
by the distinct caller 2 is rejected with CredentialAlreadyExists. -/
theorem C4_content_addressed_dedup_witness :
    ((mint_credential (fun p => p.length) initState 0 []).2).credentials 0 =
      some (0, []) ∧
    (mint_credential (fun p => p.length) demoState 2 []).1 =
      Except.error PalletError.CredentialAlreadyExists :=
  ⟨(C4_content_addressed_dedup (fun p => p.length) initState 0 2 []
      (by decide)).1 rfl,
   ((C4_content_addressed_dedup (fun p => p.length) demoState 1 2 []
      (by decide)).2 (1, []) rfl).1⟩

/-- C5: update_credential and delete_credential called on an existing
record by any account other than its owner fail with NotCredentialOwner
and return the pre-call state unchanged. -/
theorem C5_ownership_gate (s : PalletState) (A B : AccountId) (cid : Hash)
    (p m : Payload) (hcur : s.credentials cid = some (A, p)) (hne : B ≠ A) :
    (update_credential s B cid m).1 =
      Except.error PalletError.NotCredentialOwner ∧
    (update_credential s B cid m).2 = s ∧
    (delete_credential s B cid).1 =
      Except.error PalletError.NotCredentialOwner ∧
    (delete_credential s B cid).2 = s := by
  have howner : A ≠ B := fun h => hne h.symm
  rw [update_notowner_eq s B A cid m p hcur howner,
      delete_notowner_eq s B A cid p hcur howner]
  exact ⟨rfl, rfl, rfl, rfl⟩

/-- Witness for C5: on demoState, where account 1 owns the record at
hash 5, account 2 can neither update nor delete it. -/
theorem C5_ownership_gate_witness :
    (update_credential demoState 2 5 []).1 =
      Except.error PalletError.NotCredentialOwner ∧
    (delete_credential demoState 2 5).1 =
      Except.error PalletError.NotCredentialOwner := by
  have h := C5_ownership_gate demoState 1 2 5 [] [] rfl (by decide)
  exact ⟨h.1, h.2.2.1⟩

/-- C6: a successful owner update replaces exactly the payload stored at
the updated id, keeping the same id and owner, and leaves every other
Credentials entry and every owner index list unchanged; its success does
not depend on any hash of the new payload. -/
theorem C6_update_frame (s : PalletState) (A : AccountId) (cid : Hash)
    (pold m : Payload) (hcur : s.credentials cid = some (A, pold))
    (hsize : m.length ≤ 4096) :
    (update_credential s A cid m).1 = Except.ok () ∧
    ((update_credential s A cid m).2).credentials cid = some (A, m) ∧
    (∀ H, H ≠ cid →
      ((update_credential s A cid m).2).credentials H = s.credentials H) ∧
    (∀ O, ((update_credential s A cid m).2).ownerCredentials O =
      s.ownerCredentials O) := by
  rw [update_ok_eq s A cid m pold hcur hsize]
  refine ⟨rfl, ?_, ?_, ?_⟩
  · show (if cid = cid then some (A, m) else s.credentials cid) = some (A, m)
    rw [if_pos rfl]
  · intro H hne
    show (if H = cid then some (A, m) else s.credentials H) = s.credentials H
    rw [if_neg hne]
  · intro O
    rfl

/-- Witness for C6: account 1 updates the record at hash 3 in demoState
to payload [9]; the entry at hash 3 now carries the new payload while the
entry at hash 4 is untouched. -/
theorem C6_update_frame_witness :
    (update_credential demoState 1 3 [9]).1 = Except.ok () ∧
    ((update_credential demoState 1 3 [9]).2).credentials 3 = some (1, [9]) ∧
    ((update_credential demoState 1 3 [9]).2).credentials 4 = some (1, []) := by
  have h := C6_update_frame demoState 1 3 [] [9] rfl (by decide)
  exact ⟨h.1, h.2.1, h.2.2.1 4 (by decide)⟩

/-- C7: mint_credential rejects an oversized payload with
MetadataTooLarge before any duplicate or capacity check, and rejects a
duplicate hash with CredentialAlreadyExists regardless of the caller's
capacity. -/
theorem C7_mint_check_order (hashFn : Payload → Hash) (s : PalletState)
    (who : AccountId) (m : Payload) :
    (¬ m.length ≤ 4096 →
      (mint_credential hashFn s who m).1 =
        Except.error PalletError.MetadataTooLarge ∧
      (mint_credential hashFn s who m).2 = s) ∧
    (m.length ≤ 4096 → ∀ pr, s.credentials (hashFn m) = some pr →
      (mint_credential hashFn s who m).1 =
        Except.error PalletError.CredentialAlreadyExists) := by
  constructor
  · intro hsize
    rw [mint_size_err_eq hashFn s who m hsize]
    exact ⟨rfl, rfl⟩
  · intro hsize pr hdup
    rw [mint_dup_err_eq hashFn s who m pr hsize hdup]

/-- Sample state in which every hash is taken and every index list is
full: used to show that the earlier checks fire first. -/
def busyState : PalletState :=
  { credentials := fun _ => some (1, []),
    ownerCredentials := fun _ => List.replicate 500 7 }

/-- Witness for C7 on busyState, where the duplicate and capacity
conditions both hold: the oversized mint still reports MetadataTooLarge,
and the in-size mint still reports CredentialAlreadyExists even though
the caller is at capacity. -/
theorem C7_mint_check_order_witness :
    (mint_credential (fun p => p.length) busyState 0
        (List.replicate 4097 9)).1 =
      Except.error PalletError.MetadataTooLarge ∧
    (mint_credential (fun p => p.length) busyState 0 []).1 =
      Except.error PalletError.CredentialAlreadyExists :=
  ⟨((C7_mint_check_order (fun p => p.length) busyState 0
      (List.replicate 4097 9)).1
        (by simp only [List.length_replicate]; omega)).1,
   (C7_mint_check_order (fun p => p.length) busyState 0 []).2
      (by decide) (1, []) rfl⟩

/-- Lemma for C8: with the payload inside the size limit, mint_credential
never reports MetadataTooLarge, whatever else happens. -/
theorem mint_no_size_err_of_le (hashFn : Payload → Hash) (s : PalletState)
    (who : AccountId) (m : Payload) (hsize : m.length ≤ 4096) :
    (mint_credential hashFn s who m).1 ≠
      Except.error PalletError.MetadataTooLarge := by
  intro hbad
  rcases hcred : s.credentials (hashFn m) with _ | pr
  · by_cases hcap : (s.ownerCredentials who).length < 500
    · rw [mint_ok_eq hashFn s who m hsize hcred hcap] at hbad
      exact Except.noConfusion hbad
    · rw [mint_cap_err_eq hashFn s who m hsize hcred hcap] at hbad
      injection hbad with h1
      exact PalletError.noConfusion h1
  · rw [mint_dup_err_eq hashFn s who m pr hsize hcred] at hbad
    injection hbad with h1
    exact PalletError.noConfusion h1

/-- C8: a 4096-byte payload passes the size check of both mint and
update (the update, with the record present and owned by the caller,
succeeds outright; the mint cannot report MetadataTooLarge), while a
payload beyond 4096 bytes is rejected by both with MetadataTooLarge. -/
theorem C8_size_boundary (hashFn : Payload → Hash) (s : PalletState)
    (who : AccountId) (cid : Hash) (pold m : Payload)
    (hcur : s.credentials cid = some (who, pold)) :
    (m.length = 4096 →
      (mint_credential hashFn s who m).1 ≠
        Except.error PalletError.MetadataTooLarge ∧
      (update_credential s who cid m).1 = Except.ok ()) ∧
    (m.length > 4096 →
      (mint_credential hashFn s who m).1 =
        Except.error PalletError.MetadataTooLarge ∧
      (update_credential s who cid m).1 =
        Except.error PalletError.MetadataTooLarge) := by
  constructor
  · intro h4096
    have hsize : m.length ≤ 4096 := le_of_eq h4096
    refine ⟨mint_no_size_err_of_le hashFn s who m hsize, ?_⟩
    rw [update_ok_eq s who cid m pold hcur hsize]
  · intro hbig
    have hsize : ¬ m.length ≤ 4096 := by omega
    rw [mint_size_err_eq hashFn s who m hsize,
        update_size_err_eq s who cid m pold hcur hsize]
    exact ⟨rfl, rfl⟩

/-- Witness for C8 on demoState with caller 1 owning the record at hash
0: an update with a payload of exactly 4096 bytes succeeds, and a mint
with 4097 bytes reports MetadataTooLarge. -/
theorem C8_size_boundary_witness :
    (update_credential demoState 1 0 (List.replicate 4096 0)).1 =
      Except.ok () ∧
    (mint_credential (fun p => p.length) demoState 1
        (List.replicate 4097 0)).1 =
      Except.error PalletError.MetadataTooLarge := by
  have h1 := (C8_size_boundary (fun p => p.length) demoState 1 0 []
      (List.replicate 4096 0) rfl).1 (by simp only [List.length_replicate])
  have h2 := (C8_size_boundary (fun p => p.length) demoState 1 0 []
      (List.replicate 4097 0) rfl).2
      (by simp only [List.length_replicate]; omega)
  exact ⟨h1.2, h2.1⟩

/-- C9: starting from a state where Hash(P) is unbound and both A and B
have spare capacity, mint by A, delete by A, and a fresh mint of the same
payload by B all succeed, and the final record at the same id Hash(P) is
owned by B. -/
theorem C9_recreate_after_delete (hashFn : Payload → Hash) (s : PalletState)
    (A B : AccountId) (P : Payload) (hsize : P.length ≤ 4096)
    (hfree : s.credentials (hashFn P) = none)
    (hcapA : (s.ownerCredentials A).length < 500)
    (hcapB : (s.ownerCredentials B).length < 500) :
    (mint_credential hashFn s A P).1 = Except.ok () ∧
    (delete_credential (mint_credential hashFn s A P).2 A (hashFn P)).1 =
      Except.ok () ∧
    (mint_credential hashFn
      (delete_credential (mint_credential hashFn s A P).2 A (hashFn P)).2
      B P).1 = Except.ok () ∧
    ((mint_credential hashFn
      (delete_credential (mint_credential hashFn s A P).2 A (hashFn P)).2
      B P).2).credentials (hashFn P) = some (B, P) := by
  have hok1 : (mint_credential hashFn s A P).1 = Except.ok () := by
    rw [mint_ok_eq hashFn s A P hsize hfree hcapA]
  have hc1 := mint_post_cred_at hashFn s A P hsize hfree hcapA
  have hok2 : (delete_credential (mint_credential hashFn s A P).2 A
      (hashFn P)).1 = Except.ok () := by
    rw [delete_ok_eq ((mint_credential hashFn s A P).2) A (hashFn P) P hc1]
  have hc2 := delete_post_cred_at ((mint_credential hashFn s A P).2) A
      (hashFn P) P hc1
  have hcapB2 : (((delete_credential (mint_credential hashFn s A P).2 A
      (hashFn P)).2).ownerCredentials B).length < 500 := by
    by_cases hBA : B = A
    · rw [hBA, delete_post_owner_self ((mint_credential hashFn s A P).2) A
          (hashFn P) P hc1,
        mint_post_owner_self hashFn s A P hsize hfree hcapA]
      exact lt_of_le_of_lt
        (length_filter_append_le (s.ownerCredentials A) (hashFn P)) hcapA
    · rw [delete_post_owner_other ((mint_credential hashFn s A P).2) A
          (hashFn P) P hc1 B hBA,
        mint_post_owner_other hashFn s A P hsize hfree hcapA B hBA]
      exact hcapB
  have hok3 : (mint_credential hashFn
      (delete_credential (mint_credential hashFn s A P).2 A (hashFn P)).2
      B P).1 = Except.ok () := by
    rw [mint_ok_eq hashFn _ B P hsize hc2 hcapB2]
  have hc3 := mint_post_cred_at hashFn
      ((delete_credential (mint_credential hashFn s A P).2 A (hashFn P)).2)
      B P hsize hc2 hcapB2
  exact ⟨hok1, hok2, hok3, hc3⟩

/-- Witness for C9: from genesis, account 1 mints payload [5] (id 1 under
the length hash), deletes it, and account 2 re-mints the same payload,
ending with the record at id 1 owned by account 2. -/
theorem C9_recreate_after_delete_witness :
    ((mint_credential (fun p => p.length)
        (delete_credential
          (mint_credential (fun p => p.length) initState 1 [5]).2 1 1).2
        2 [5]).2).credentials 1 = some (2, [5]) :=
  (C9_recreate_after_delete (fun p => p.length) initState 1 2 [5]
    (by decide) rfl (by decide) (by decide)).2.2.2

/-- C10: whenever the three mint checks pass, the try_push that follows
the Credentials insert cannot fail: it returns the appended list, so the
call succeeds with both maps written. -/
theorem C10_try_push_infallible (hashFn : Payload → Hash) (s : PalletState)
    (who : AccountId) (m : Payload) (hsize : m.length ≤ 4096)
    (hdup : s.credentials (hashFn m) = none)
    (hcap : (s.ownerCredentials who).length < 500) :
    tryPush 500 (s.ownerCredentials who) (hashFn m) =
      some (s.ownerCredentials who ++ [hashFn m]) ∧
    (mint_credential hashFn s who m).1 = Except.ok () ∧
    ((mint_credential hashFn s who m).2).credentials (hashFn m) =
      some (who, m) ∧
    ((mint_credential hashFn s who m).2).ownerCredentials who =
      s.ownerCredentials who ++ [hashFn m] := by
  refine ⟨?_, ?_, mint_post_cred_at hashFn s who m hsize hdup hcap,
    mint_post_owner_self hashFn s who m hsize hdup hcap⟩
  · unfold tryPush
    rw [if_pos hcap]
  · rw [mint_ok_eq hashFn s who m hsize hdup hcap]

/-- Witness for C10: on genesis with caller 0 and the empty payload, the
try_push succeeds and the mint returns Ok with both maps written. -/
theorem C10_try_push_infallible_witness :
    tryPush 500 (initState.ownerCredentials 0) 0 = some [0] ∧
    (mint_credential (fun p => p.length) initState 0 []).1 = Except.ok () :=
  ⟨(C10_try_push_infallible (fun p => p.length) initState 0 []
      (by decide) rfl (by decide)).1,
   (C10_try_push_infallible (fun p => p.length) initState 0 []
      (by decide) rfl (by decide)).2.1⟩
